import Mathlib

/-!
Verification of the git middleware in `src/git/git.go` (package `git` of the
wish repository).  The middleware is modelled as a trace-producing function:
every externally visible action of one SSH session (authorization query,
subprocess spawn, directory creation, write to the client, session exit,
push-callback invocation, hand-off to the wrapped downstream handler) is an
`Event`, and the outcomes of all external calls (filesystem stats, subprocess
exit statuses, go-git library results) are supplied by an `Oracle` so that
every execution path of the Go code corresponds to one oracle valuation.
-/

namespace WishGit

/-- `AccessLevel` from git.go: the level of access allowed to a repo
(`NoAccess`, `ReadOnlyAccess`, `ReadWriteAccess`, `AdminAccess`). -/
inductive AccessLevel where
  | noAccess
  | readOnlyAccess
  | readWriteAccess
  | adminAccess
deriving DecidableEq, Repr

/-- A Go `error` value as far as this middleware can distinguish them:
`refNotFound` stands for the sentinel `plumbing.ErrReferenceNotFound`, which
`ensureDefaultBranch` compares against; every other error is opaque. -/
inductive GErr where
  | refNotFound
  | other (code : Nat)
deriving DecidableEq, Repr

/-- Outcome of one `os.Stat` call as seen by `fileExists` (git.go): the path
is present, absent, or the stat itself fails with some other error. -/
inductive StatResult where
  | present
  | absent
  | statError (e : GErr)
deriving DecidableEq, Repr

/-- Outcome of the `brs.Next()` call in `ensureDefaultBranch`: either an
error (for a repository with no branches this is `io.EOF`) or the first
branch, recorded by its short name. -/
inductive BranchNext where
  | nextErr (e : GErr)
  | nextOk (name : String)
deriving DecidableEq, Repr

/-- Externally visible actions of one session handled by the middleware. -/
inductive Event where
  | authRepo (repo : String) (pk : Nat)
  | spawn (dir name : String) (args : List String)
  | mkdirAll (dir : String) (mode : Nat)
  | write (s : String)
  | exitSession (code : Nat)
  | callback (repo : String) (pk : Nat)
  | downstream
deriving DecidableEq, Repr

/-- True for the events that are subprocess or filesystem actions
(`exec.CommandContext` runs and `os.MkdirAll`). -/
def Event.isProc : Event → Bool
  | .spawn _ _ _ => true
  | .mkdirAll _ _ => true
  | _ => false

/-- True exactly for `authRepo` events. -/
def Event.isAuth : Event → Bool
  | .authRepo _ _ => true
  | _ => false

/-- Responses of the environment to every external call a single session can
make.  Each field corresponds to one call site in git.go; a field is simply
unused on paths that never reach its call site. -/
structure Oracle where
  /-- result of `auth.AuthRepo(repo, pk)` -/
  access : AccessLevel
  /-- `fileExists(dir)` on the repo root, inside `ensureRepo` -/
  rootStat : StatResult
  /-- result of `os.MkdirAll` on the root, inside `ensureRepo` -/
  mkdirResult : Option GErr
  /-- `fileExists(rp)` on the repository path (`ensureRepo` / `gitUploadPack`) -/
  repoStat : StatResult
  /-- result of running `git init --bare rp` -/
  initResult : Option GErr
  /-- result of running the main `git-receive-pack` / `git-upload-pack` /
  `git-upload-archive` subprocess -/
  packRun : Option GErr
  /-- result of running `git update-server-info` -/
  updateInfoRun : Option GErr
  /-- error of `git.PlainOpen(repoPath)`, `none` on success -/
  plainOpen : Option GErr
  /-- error of `r.Branches()`, `none` on success -/
  branchesResult : Option GErr
  /-- result of `brs.Next()` -/
  firstBranch : BranchNext
  /-- error of `r.Head()`, `none` on success -/
  headResult : Option GErr
  /-- result of running `git branch -M <first-branch>` -/
  renameRun : Option GErr
deriving DecidableEq, Repr

/-- `fileExists` (git.go): returns `(true, nil)` when the path exists,
`(false, nil)` when `os.Stat` reports not-exist, and `(true, err)` for any
other stat error. -/
def fileExists : StatResult → Bool × Option GErr
  | .present => (true, none)
  | .absent => (false, none)
  | .statError e => (true, some e)

/-- Fuel-bounded digit extraction: for `n < fuel` this yields the big-endian
lowercase hexadecimal digits of `n` (at least one digit). -/
def hexDigitsAux : Nat → Nat → List Char
  | 0, _ => []
  | fuel + 1, n =>
    if n < 16 then [Nat.digitChar n]
    else hexDigitsAux fuel (n / 16) ++ [Nat.digitChar (n % 16)]

/-- Big-endian lowercase hexadecimal digits of `n` (at least one digit), as
produced by Go's `%x` verb. -/
def hexDigits (n : Nat) : List Char := hexDigitsAux (n + 1) n

/-- Go's `%04x` verb: the hex digits of `n`, left-padded with zeros to a
minimum width of four characters. -/
def hex4 (n : Nat) : String :=
  ⟨List.replicate (4 - (hexDigits n).length) '0' ++ hexDigits n⟩

/-- The pkt-line built by `fatalGit` (git.go): `fmt.Sprintf("%04x%s\n",
len(msg)+5, msg)`, where `len` is the byte length of the message. -/
def pktLine (msg : String) : String :=
  hex4 (msg.utf8ByteSize + 5) ++ msg ++ "\n"

/-- Message of `ErrNotAuthed` (git.go). -/
def errNotAuthed : String := "you are not authorized to do this"

/-- Message of `ErrSystemMalfunction` (git.go). -/
def errSystemMalfunction : String := "something went wrong"

/-- `fatalGit` (git.go): write the pkt-line encoding of the error message to
the session, then exit the session with status 1. -/
def fatalGit (msg : String) : List Event :=
  [.write (pktLine msg), .exitSession 1]

/-- `runCmd` (git.go): spawn the named command in `dir` with the session
wired to its stdin/stdout; the oracle supplies its exit outcome. -/
def runCmd (res : Option GErr) (dir name : String) (args : List String) :
    Option GErr × List Event :=
  (res, [.spawn dir name args])

/-- The mode passed to `os.MkdirAll` in `ensureRepo`:
`os.ModeDir | os.FileMode(0700)` (`os.ModeDir` is bit 31). -/
def mkdirMode : Nat := 2 ^ 31 + 0o700

/-- `ensureRepo` (git.go): create the root directory if missing, then
initialize a bare repository at `dir ++ repo` with `git init --bare` if that
path is missing. -/
def ensureRepo (o : Oracle) (dir repo : String) : Option GErr × List Event :=
  match fileExists o.rootStat with
  | (_, some e) => (some e, [])
  | (ex1, none) =>
    let mkEv : List Event := if ex1 then [] else [.mkdirAll dir mkdirMode]
    let mkErr : Option GErr := if ex1 then none else o.mkdirResult
    match mkErr with
    | some e => (some e, mkEv)
    | none =>
      let rp := dir ++ repo
      match fileExists o.repoStat with
      | (_, some e) => (some e, mkEv)
      | (ex2, none) =>
        if ex2 then (none, mkEv)
        else
          match o.initResult with
          | some e => (some e, mkEv ++ [.spawn "" "git" ["init", "--bare", rp]])
          | none => (none, mkEv ++ [.spawn "" "git" ["init", "--bare", rp]])

/-- `ensureDefaultBranch` (git.go): open the repository, enumerate branches,
take the first; if resolving `HEAD` fails with exactly
`plumbing.ErrReferenceNotFound`, run `git branch -M <first>`; any other
`HEAD` failure propagates; successful resolution is a no-op. -/
def ensureDefaultBranch (o : Oracle) (repoPath : String) :
    Option GErr × List Event :=
  match o.plainOpen with
  | some e => (some e, [])
  | none =>
    match o.branchesResult with
    | some e => (some e, [])
    | none =>
      match o.firstBranch with
      | .nextErr e => (some e, [])
      | .nextOk fb =>
        match o.headResult with
        | none => (none, [])
        | some .refNotFound => runCmd o.renameRun repoPath "git" ["branch", "-M", fb]
        | some e => (some e, [])

/-- `gitReceivePack` (git.go): ensure the repository exists, run the
receive-pack subprocess, run `git update-server-info` in the repository,
then normalize the default branch; the first failure aborts the chain. -/
def gitReceivePack (o : Oracle) (gitCmd repoDir repo : String) :
    Option GErr × List Event :=
  let rp := repoDir ++ repo
  let r1 := ensureRepo o repoDir repo
  match r1.1 with
  | some e => (some e, r1.2)
  | none =>
    let r2 := runCmd o.packRun "./" gitCmd [rp]
    match r2.1 with
    | some e => (some e, r1.2 ++ r2.2)
    | none =>
      let r3 := runCmd o.updateInfoRun rp "git" ["update-server-info"]
      match r3.1 with
      | some e => (some e, r1.2 ++ r2.2 ++ r3.2)
      | none =>
        let r4 := ensureDefaultBranch o rp
        (r4.1, r1.2 ++ r2.2 ++ r3.2 ++ r4.2)

/-- `gitUploadPack` (git.go): if the repository path exists (and the stat
did not error), spawn the upload subprocess; otherwise do nothing and
return nil. -/
def gitUploadPack (o : Oracle) (gitCmd repoDir repo : String) :
    Option GErr × List Event :=
  let rp := repoDir ++ repo
  match fileExists o.repoStat with
  | (ex, err) =>
    if ex && err.isNone then runCmd o.packRun "./" gitCmd [rp]
    else (none, [])

/-- The `switch gc` body of `MiddlewareWithPushCallback` (git.go), for a
two-element command `(gc, repo)`: dispatch on the subcommand and the access
level already obtained; on an error of the git path report
`ErrSystemMalfunction` via `fatalGit`; on the receive-pack path invoke the
callback (when configured) after the git path returns; on insufficient
access report `ErrNotAuthed`. -/
def dispatchGit (o : Oracle) (hasCb : Bool) (repoDir gc repo : String) (pk : Nat) :
    List Event :=
  if gc = "git-receive-pack" then
    if o.access = .readWriteAccess ∨ o.access = .adminAccess then
      let r := gitReceivePack o gc repoDir repo
      r.2 ++ (if r.1.isSome then fatalGit errSystemMalfunction else [])
          ++ (if hasCb then [Event.callback repo pk] else [])
    else fatalGit errNotAuthed
  else if gc = "git-upload-archive" ∨ gc = "git-upload-pack" then
    if o.access = .readOnlyAccess ∨ o.access = .readWriteAccess ∨
        o.access = .adminAccess then
      let r := gitUploadPack o gc repoDir repo
      r.2 ++ (if r.1.isSome then fatalGit errSystemMalfunction else [])
    else fatalGit errNotAuthed
  else []

/-- The session handler returned by `MiddlewareWithPushCallback` (git.go):
if the session command has exactly two elements, call `auth.AuthRepo` and
run the git dispatch; in every case finish by invoking the wrapped
downstream handler `sh(s)`. -/
def sessionHandler (o : Oracle) (hasCb : Bool) (repoDir : String) (pk : Nat)
    (cmd : List String) : List Event :=
  (match cmd with
   | [gc, repo] => Event.authRepo repo pk :: dispatchGit o hasCb repoDir gc repo pk
   | _ => []) ++ [Event.downstream]

/-- Numeric value of one lowercase hexadecimal digit character. -/
def hexCharVal (c : Char) : Nat :=
  if 97 ≤ c.toNat then c.toNat - 87 else c.toNat - 48

/-- Whether `c` is a lowercase hexadecimal digit (`0`-`9` or `a`-`f`). -/
def isHexDigitChar (c : Char) : Bool :=
  (48 ≤ c.toNat && c.toNat ≤ 57) || (97 ≤ c.toNat && c.toNat ≤ 102)

/-- Value of a big-endian string of hexadecimal digit characters. -/
def decodeHex (cs : List Char) : Nat :=
  cs.foldl (fun acc c => 16 * acc + hexCharVal c) 0

/-- An environment in which every external call succeeds: the root and the
repository already exist, all subprocesses exit 0, the repository opens,
has a first branch `main`, and `HEAD` resolves. -/
def happyOracle : Oracle where
  access := .adminAccess
  rootStat := .present
  mkdirResult := none
  repoStat := .present
  initResult := none
  packRun := none
  updateInfoRun := none
  plainOpen := none
  branchesResult := none
  firstBranch := .nextOk "main"
  headResult := none
  renameRun := none

/-- A push environment in which provisioning succeeds but the
`git-receive-pack` subprocess itself exits nonzero. -/
def failedPushOracle : Oracle :=
  { happyOracle with packRun := some (.other 1) }

/-- An environment whose authorization answer is `NoAccess`. -/
def noAccessOracle : Oracle :=
  { happyOracle with access := .noAccess }

/-- A read-only environment in which the requested repository path does not
exist on disk. -/
def missingRepoOracle : Oracle :=
  { happyOracle with access := .readOnlyAccess, repoStat := .absent }

/-- A first-push environment: the root exists, the repository does not and
its initialization succeeds, both subprocesses succeed, and the fresh
repository ends up with zero branches, so `brs.Next()` fails (`io.EOF`). -/
def zeroBranchOracle : Oracle :=
  { happyOracle with repoStat := .absent, firstBranch := .nextErr (.other 0) }

/-- A first-push environment whose repository has a first branch `develop`
and an unresolvable `HEAD` (the reference-not-found sentinel). -/
def firstPushOracle : Oracle :=
  { happyOracle with
    repoStat := .absent
    firstBranch := .nextOk "develop"
    headResult := some .refNotFound }

/-- An environment where the repository root directory is missing. -/
def missingRootOracle : Oracle :=
  { happyOracle with rootStat := .absent, repoStat := .absent }

/-! ### Correctness of the `%04x` model -/

theorem hexCharVal_digitChar (d : Nat) (hd : d < 16) :
    hexCharVal (Nat.digitChar d) = d := by
  interval_cases d <;> rfl

theorem isHexDigitChar_digitChar (d : Nat) (hd : d < 16) :
    isHexDigitChar (Nat.digitChar d) = true := by
  interval_cases d <;> rfl

theorem decodeHex_append_singleton (a : List Char) (c : Char) :
    decodeHex (a ++ [c]) = 16 * decodeHex a + hexCharVal c := by
  simp [decodeHex, List.foldl_append]

theorem decodeHex_hexDigitsAux :
    ∀ fuel n, n < fuel → decodeHex (hexDigitsAux fuel n) = n := by
  intro fuel
  induction fuel with
  | zero => intro n hn; omega
  | succ fuel ih =>
    intro n hn
    by_cases h16 : n < 16
    · simp [hexDigitsAux, h16, decodeHex, hexCharVal_digitChar n h16]
    · have hdiv : n / 16 < fuel := by
        have hlt : n / 16 < n := Nat.div_lt_self (by omega) (by omega)
        omega
      rw [hexDigitsAux]
      simp only [h16, if_false]
      rw [decodeHex_append_singleton, ih _ hdiv,
        hexCharVal_digitChar _ (Nat.mod_lt n (by omega))]
      omega

theorem decodeHex_hexDigits (n : Nat) : decodeHex (hexDigits n) = n :=
  decodeHex_hexDigitsAux (n + 1) n (Nat.lt_succ_self n)

theorem hexDigitsAux_mem_hex :
    ∀ fuel n c, c ∈ hexDigitsAux fuel n → isHexDigitChar c = true := by
  intro fuel
  induction fuel with
  | zero => intro n c hc; simp [hexDigitsAux] at hc
  | succ fuel ih =>
    intro n c hc
    by_cases h16 : n < 16
    · simp [hexDigitsAux, h16] at hc
      subst hc
      exact isHexDigitChar_digitChar n h16
    · rw [hexDigitsAux] at hc
      simp only [h16, if_false, List.mem_append, List.mem_singleton] at hc
      rcases hc with hc | hc
      · exact ih _ _ hc
      · subst hc
        exact isHexDigitChar_digitChar _ (Nat.mod_lt n (by omega))

theorem hexDigitsAux_length_le :
    ∀ fuel k n, n < 16 ^ (k + 1) → (hexDigitsAux fuel n).length ≤ k + 1 := by
  intro fuel
  induction fuel with
  | zero => intro k n _; simp [hexDigitsAux]
  | succ fuel ih =>
    intro k n hn
    by_cases h16 : n < 16
    · simp [hexDigitsAux, h16]
    · match k with
      | 0 => omega
      | k + 1 =>
        rw [hexDigitsAux]
        simp only [h16, if_false, List.length_append, List.length_singleton]
        have hdiv : n / 16 < 16 ^ (k + 1) := by
          rw [Nat.div_lt_iff_lt_mul (by omega)]
          calc n < 16 ^ (k + 2) := hn
          _ = 16 ^ (k + 1) * 16 := by ring
        have := ih k (n / 16) hdiv
        omega

theorem hexDigitsAux_ne_nil :
    ∀ fuel n, n < fuel → hexDigitsAux fuel n ≠ [] := by
  intro fuel
  induction fuel with
  | zero => intro n hn; omega
  | succ fuel _ =>
    intro n _
    by_cases h16 : n < 16 <;> simp [hexDigitsAux, h16]

theorem decodeHex_replicate_zero :
    ∀ k ds, decodeHex (List.replicate k '0' ++ ds) = decodeHex ds := by
  intro k
  induction k with
  | zero => intro ds; simp
  | succ k ih =>
    intro ds
    rw [List.replicate_succ, List.cons_append]
    show decodeHex ('0' :: (List.replicate k '0' ++ ds)) = decodeHex ds
    have h0 : (16 * 0 + hexCharVal '0') = 0 := by decide
    simp only [decodeHex, List.foldl_cons, h0] at *
    exact ih ds

theorem hex4_length (n : Nat) (hn : n < 65536) : (hex4 n).data.length = 4 := by
  have hle : (hexDigits n).length ≤ 4 := by
    have := hexDigitsAux_length_le (n + 1) 3 n (by norm_num; omega)
    simpa [hexDigits] using this
  have hne : hexDigits n ≠ [] :=
    hexDigitsAux_ne_nil (n + 1) n (Nat.lt_succ_self n)
  have hge : 1 ≤ (hexDigits n).length := by
    cases h : hexDigits n with
    | nil => exact absurd h hne
    | cons a l => simp
  simp only [hex4, String.data, List.length_append, List.length_replicate]
  omega

theorem hex4_decode (n : Nat) : decodeHex (hex4 n).data = n := by
  simp only [hex4, String.data]
  rw [decodeHex_replicate_zero, decodeHex_hexDigits]

theorem hex4_mem_hex (n : Nat) (c : Char) (hc : c ∈ (hex4 n).data) :
    isHexDigitChar c = true := by
  simp only [hex4, String.data, List.mem_append, List.mem_replicate] at hc
  rcases hc with ⟨_, hc⟩ | hc
  · subst hc; decide
  · exact hexDigitsAux_mem_hex (n + 1) n c hc

/-! ### Classification of the events each component can emit -/

theorem pktLine_notAuthed_ne_malfunction :
    pktLine errNotAuthed ≠ pktLine errSystemMalfunction := by decide

theorem ensureRepo_proc (o : Oracle) (dir repo : String) :
    ∀ e ∈ (ensureRepo o dir repo).2, e.isProc = true := by
  intro e he
  rcases o with ⟨acc, rs, mk, ps, init, pack, usi, po, br, fb, hd, rn⟩
  cases rs <;> cases ps <;> cases mk <;> cases init <;>
    simp_all [ensureRepo, fileExists, Event.isProc]
  all_goals (rcases he with he | he <;> subst he <;> rfl)

theorem ensureDefaultBranch_proc (o : Oracle) (rp : String) :
    ∀ e ∈ (ensureDefaultBranch o rp).2, e.isProc = true := by
  intro e he
  rcases o with ⟨acc, rs, mk, ps, init, pack, usi, po, br, fb, hd, rn⟩
  cases po <;> cases br <;> cases fb <;> cases hd <;>
    simp_all [ensureDefaultBranch, runCmd, Event.isProc]
  case none.none.nextOk.some n e =>
    cases e <;> simp_all [Event.isProc]

theorem gitReceivePack_proc (o : Oracle) (gc rd repo : String) :
    ∀ e ∈ (gitReceivePack o gc rd repo).2, e.isProc = true := by
  intro e he
  simp only [gitReceivePack, runCmd] at he
  split at he
  · exact ensureRepo_proc o rd repo e he
  · split at he
    · simp only [List.mem_append] at he
      rcases he with he | he
      · exact ensureRepo_proc o rd repo e he
      · simp only [List.mem_singleton] at he
        subst he; rfl
    · split at he
      · simp only [List.mem_append] at he
        rcases he with (he | he) | he
        · exact ensureRepo_proc o rd repo e he
        · simp only [List.mem_singleton] at he
          subst he; rfl
        · simp only [List.mem_singleton] at he
          subst he; rfl
      · simp only [List.mem_append] at he
        rcases he with ((he | he) | he) | he
        · exact ensureRepo_proc o rd repo e he
        · simp only [List.mem_singleton] at he
          subst he; rfl
        · simp only [List.mem_singleton] at he
          subst he; rfl
        · exact ensureDefaultBranch_proc o (rd ++ repo) e he

theorem gitUploadPack_proc (o : Oracle) (gc rd repo : String) :
    ∀ e ∈ (gitUploadPack o gc rd repo).2, e.isProc = true := by
  intro e he
  rcases o with ⟨acc, rs, mk, ps, init, pack, usi, po, br, fb, hd, rn⟩
  cases ps <;> simp_all [gitUploadPack, fileExists, runCmd, Event.isProc]

theorem mem_fatalGit {e : Event} {msg : String} (he : e ∈ fatalGit msg) :
    e = .write (pktLine msg) ∨ e = .exitSession 1 := by
  simp only [fatalGit, List.mem_cons, List.mem_singleton] at he
  tauto

theorem mem_ite_fatalGit {e : Event} {c : Prop} [Decidable c] {msg : String}
    (he : e ∈ (if c then fatalGit msg else ([] : List Event))) :
    e = .write (pktLine msg) ∨ e = .exitSession 1 := by
  by_cases hc : c
  · rw [if_pos hc] at he
    exact mem_fatalGit he
  · rw [if_neg hc] at he
    simp at he

theorem mem_ite_callback {e : Event} {c : Prop} [Decidable c] {repo : String}
    {pk : Nat} (he : e ∈ (if c then [Event.callback repo pk] else [])) :
    e = .callback repo pk := by
  by_cases hc : c
  · rw [if_pos hc] at he
    simpa using he
  · rw [if_neg hc] at he
    simp at he

theorem dispatchGit_mem (o : Oracle) (cb : Bool) (rd gc repo : String) (pk : Nat)
    (e : Event) (he : e ∈ dispatchGit o cb rd gc repo pk) :
    e.isProc = true ∨ e = .write (pktLine errNotAuthed) ∨
      e = .write (pktLine errSystemMalfunction) ∨ e = .exitSession 1 ∨
      e = .callback repo pk := by
  unfold dispatchGit at he
  by_cases h1 : gc = "git-receive-pack"
  · rw [if_pos h1] at he
    by_cases ha : o.access = .readWriteAccess ∨ o.access = .adminAccess
    · rw [if_pos ha] at he
      simp only [List.mem_append] at he
      rcases he with (hm | hm) | hm
      · exact Or.inl (gitReceivePack_proc o gc rd repo e hm)
      · rcases mem_ite_fatalGit hm with h | h <;> tauto
      · have := mem_ite_callback hm
        tauto
    · rw [if_neg ha] at he
      rcases mem_fatalGit he with h | h <;> tauto
  · rw [if_neg h1] at he
    by_cases h2 : gc = "git-upload-archive" ∨ gc = "git-upload-pack"
    · rw [if_pos h2] at he
      by_cases ha : o.access = .readOnlyAccess ∨ o.access = .readWriteAccess ∨
          o.access = .adminAccess
      · rw [if_pos ha] at he
        simp only [List.mem_append] at he
        rcases he with hm | hm
        · exact Or.inl (gitUploadPack_proc o gc rd repo e hm)
        · rcases mem_ite_fatalGit hm with h | h <;> tauto
      · rw [if_neg ha] at he
        rcases mem_fatalGit he with h | h <;> tauto
    · rw [if_neg h2] at he
      simp at he

theorem isProc_isAuth_false (e : Event) (h : e.isProc = true) :
    e.isAuth = false := by
  cases e <;> simp_all [Event.isProc, Event.isAuth]

theorem isProc_ne_write (e : Event) (h : e.isProc = true) (s : String) :
    e ≠ .write s := by
  cases e <;> simp_all [Event.isProc]

theorem sessionHandler_mem (o : Oracle) (cb : Bool) (rd : String) (pk : Nat)
    (cmd : List String) (e : Event) (he : e ∈ sessionHandler o cb rd pk cmd) :
    e = .downstream ∨
      ∃ gc repo, cmd = [gc, repo] ∧
        (e = .authRepo repo pk ∨ e ∈ dispatchGit o cb rd gc repo pk) := by
  unfold sessionHandler at he
  rcases cmd with _ | ⟨gc, _ | ⟨repo, _ | ⟨x, rest⟩⟩⟩
  · simp at he; exact Or.inl he
  · simp at he; exact Or.inl he
  · simp only [List.cons_append, List.nil_append, List.mem_cons,
      List.mem_append, List.mem_singleton] at he
    rcases he with he | he | he
    · exact Or.inr ⟨gc, repo, rfl, Or.inl he⟩
    · exact Or.inr ⟨gc, repo, rfl, Or.inr he⟩
    · exact Or.inl (by simpa using he)
  · left
    simpa using he

theorem access_ne_noAccess_iff (a : AccessLevel) :
    a ≠ .noAccess ↔
      (a = .readOnlyAccess ∨ a = .readWriteAccess ∨ a = .adminAccess) := by
  cases a <;> simp

theorem dispatchGit_no_auth (o : Oracle) (cb : Bool) (rd gc repo : String)
    (pk : Nat) : ∀ e ∈ dispatchGit o cb rd gc repo pk, e.isAuth = false := by
  intro e he
  rcases dispatchGit_mem o cb rd gc repo pk e he with hp | h | h | h | h
  · exact isProc_isAuth_false e hp
  all_goals (subst h; rfl)

theorem notAuthed_not_mem_dispatch_authorized (o : Oracle) (cb : Bool)
    (rd gc repo : String) (pk : Nat)
    (hrp : gc = "git-receive-pack" →
      o.access = .readWriteAccess ∨ o.access = .adminAccess)
    (hup : gc = "git-upload-archive" ∨ gc = "git-upload-pack" →
      o.access = .readOnlyAccess ∨ o.access = .readWriteAccess ∨
        o.access = .adminAccess) :
    Event.write (pktLine errNotAuthed) ∉ dispatchGit o cb rd gc repo pk := by
  intro he
  unfold dispatchGit at he
  by_cases h1 : gc = "git-receive-pack"
  · rw [if_pos h1, if_pos (hrp h1)] at he
    simp only [List.mem_append] at he
    rcases he with (hm | hm) | hm
    · simpa [Event.isProc] using gitReceivePack_proc o gc rd repo _ hm
    · rcases mem_ite_fatalGit hm with h | h
      · exact pktLine_notAuthed_ne_malfunction (by injection h)
      · simp at h
    · have := mem_ite_callback hm
      simp at this
  · rw [if_neg h1] at he
    by_cases h2 : gc = "git-upload-archive" ∨ gc = "git-upload-pack"
    · rw [if_pos h2, if_pos (hup h2)] at he
      simp only [List.mem_append] at he
      rcases he with hm | hm
      · simpa [Event.isProc] using gitUploadPack_proc o gc rd repo _ hm
      · rcases mem_ite_fatalGit hm with h | h
        · exact pktLine_notAuthed_ne_malfunction (by injection h)
        · simp at h
    · rw [if_neg h2] at he
      simp at he

/-! ### Claim theorems -/

/-- **C1**: on a two-element command, `git-receive-pack` proceeds iff the
access level is ReadWrite or Admin, and the two upload subcommands proceed
iff it is ReadOnly, ReadWrite or Admin: with sufficient access the
NotAuthorized pkt-line is never written (and, when the relevant paths
exist, the requested git subprocess is spawned); with insufficient access
the session trace is exactly the authorization query, the pkt-line write of
"you are not authorized to do this" and exit status 1 before the downstream
handler — so no subprocess is spawned and nothing is created on disk. -/
theorem git_commands_gated_by_access_level (o : Oracle) (cb : Bool)
    (rd repo : String) (pk : Nat) :
    (((o.access = .readWriteAccess ∨ o.access = .adminAccess) →
        Event.write (pktLine errNotAuthed) ∉
          sessionHandler o cb rd pk ["git-receive-pack", repo] ∧
        (o.rootStat = .present → o.repoStat = .present →
          Event.spawn "./" "git-receive-pack" [rd ++ repo] ∈
            sessionHandler o cb rd pk ["git-receive-pack", repo])) ∧
      (¬(o.access = .readWriteAccess ∨ o.access = .adminAccess) →
        sessionHandler o cb rd pk ["git-receive-pack", repo] =
          [.authRepo repo pk, .write (pktLine errNotAuthed), .exitSession 1,
            .downstream])) ∧
    ∀ gc, gc = "git-upload-pack" ∨ gc = "git-upload-archive" →
      ((o.access ≠ .noAccess →
          Event.write (pktLine errNotAuthed) ∉
            sessionHandler o cb rd pk [gc, repo] ∧
          (o.repoStat = .present →
            Event.spawn "./" gc [rd ++ repo] ∈
              sessionHandler o cb rd pk [gc, repo])) ∧
        (o.access = .noAccess →
          sessionHandler o cb rd pk [gc, repo] =
            [.authRepo repo pk, .write (pktLine errNotAuthed), .exitSession 1,
              .downstream])) := by
  refine ⟨⟨fun ha => ⟨fun hmem => ?_, fun hroot hrepo => ?_⟩, fun ha => ?_⟩,
    fun gc hgc => ⟨fun ha => ⟨fun hmem => ?_, fun hrepo => ?_⟩, fun ha => ?_⟩⟩
  · unfold sessionHandler at hmem
    simp only [List.cons_append, List.nil_append, List.mem_cons,
      List.mem_append, List.mem_singleton] at hmem
    rcases hmem with h | h | h
    · simp at h
    · exact notAuthed_not_mem_dispatch_authorized o cb rd _ repo pk
        (fun _ => ha) (by simp) h
    · simp at h
  · rcases ha with ha | ha <;>
      cases hp : o.packRun <;> cases hu : o.updateInfoRun <;>
      simp [sessionHandler, dispatchGit, ha, gitReceivePack, ensureRepo,
        fileExists, hroot, hrepo, runCmd, hp, hu]
  · simp [sessionHandler, dispatchGit, ha, fatalGit]
  · rw [access_ne_noAccess_iff] at ha
    unfold sessionHandler at hmem
    simp only [List.cons_append, List.nil_append, List.mem_cons,
      List.mem_append, List.mem_singleton] at hmem
    rcases hmem with h | h | h
    · simp at h
    · refine notAuthed_not_mem_dispatch_authorized o cb rd gc repo pk
        (fun hg => ?_) (fun _ => ha) h
      rcases hgc with rfl | rfl <;> simp at hg
    · simp at h
  · rw [access_ne_noAccess_iff] at ha
    rcases hgc with rfl | rfl <;> rcases ha with ha | ha | ha <;>
      simp [sessionHandler, dispatchGit, ha, gitUploadPack, fileExists,
        hrepo, runCmd]
  · rcases hgc with rfl | rfl <;>
      simp [sessionHandler, dispatchGit, ha, fatalGit]

/-- Witness for C1: with `NoAccess`, a push session is exactly the refusal
trace; with Admin access on an existing repository, an upload spawns the
subprocess and never writes the NotAuthorized pkt-line. -/
theorem git_commands_gated_by_access_level_witness :
    sessionHandler noAccessOracle true "/srv/" 0 ["git-receive-pack", "r"] =
        [.authRepo "r" 0, .write (pktLine errNotAuthed), .exitSession 1,
          .downstream] ∧
      Event.spawn "./" "git-upload-pack" ["/srv/" ++ "r"] ∈
        sessionHandler happyOracle true "/srv/" 0 ["git-upload-pack", "r"] :=
  ⟨(git_commands_gated_by_access_level noAccessOracle true "/srv/" "r" 0).1.2
      (by decide),
    (((git_commands_gated_by_access_level happyOracle true "/srv/" "r" 0).2
      "git-upload-pack" (Or.inl rfl)).1 (by decide)).2 rfl⟩

/-- **C3**: for every reported failure, `fatalGit` writes exactly one
string — a four-character ASCII prefix of lowercase hex digits that decodes
to the byte length of the message plus 5, then the message, then a trailing
newline — and then exits the session with status 1 (stated for messages
whose pkt-line length fits in four hex digits; Go's `%04x` pads to a
minimum, not exact, width of four). -/
theorem fatalGit_writes_pktline_then_exits (msg : String)
    (h : msg.utf8ByteSize + 5 < 65536) :
    ∃ p : String,
      fatalGit msg = [.write (p ++ msg ++ "\n"), .exitSession 1] ∧
        p.data.length = 4 ∧
        (∀ c ∈ p.data, isHexDigitChar c = true) ∧
        decodeHex p.data = msg.utf8ByteSize + 5 :=
  ⟨hex4 (msg.utf8ByteSize + 5), rfl, hex4_length _ h,
    fun c hc => hex4_mem_hex _ c hc, hex4_decode _⟩

/-- Witness for C3 at the concrete NotAuthorized message. -/
theorem fatalGit_writes_pktline_then_exits_witness :
    errNotAuthed.utf8ByteSize + 5 < 65536 ∧
      ∃ p : String,
        fatalGit errNotAuthed = [.write (p ++ errNotAuthed ++ "\n"), .exitSession 1] ∧
          p.data.length = 4 ∧
          (∀ c ∈ p.data, isHexDigitChar c = true) ∧
          decodeHex p.data = errNotAuthed.utf8ByteSize + 5 :=
  ⟨by decide, fatalGit_writes_pktline_then_exits errNotAuthed (by decide)⟩

/-- **C4**: default-branch normalization: when the repository opens, branch
enumeration succeeds and a first branch exists, a `HEAD` failure equal to
the reference-not-found sentinel triggers exactly the forced rename
`git branch -M <first-branch>` (whose outcome becomes the result); any
other `HEAD` failure propagates with no rename; and a successful `HEAD`
resolution performs no action at all. -/
theorem ensureDefaultBranch_head_cases (o : Oracle) (rp fb : String)
    (hopen : o.plainOpen = none) (hbr : o.branchesResult = none)
    (hfb : o.firstBranch = .nextOk fb) :
    (o.headResult = some .refNotFound →
        ensureDefaultBranch o rp =
          (o.renameRun, [.spawn rp "git" ["branch", "-M", fb]])) ∧
      (∀ e, e ≠ GErr.refNotFound → o.headResult = some e →
        ensureDefaultBranch o rp = (some e, [])) ∧
      (o.headResult = none → ensureDefaultBranch o rp = (none, [])) := by
  refine ⟨fun hh => ?_, fun e hne hh => ?_, fun hh => ?_⟩
  · simp [ensureDefaultBranch, hopen, hbr, hfb, hh, runCmd]
  · cases e with
    | refNotFound => exact absurd rfl hne
    | other n => simp [ensureDefaultBranch, hopen, hbr, hfb, hh]
  · simp [ensureDefaultBranch, hopen, hbr, hfb, hh]

/-- Witness for C4: a fresh repository whose first branch is `develop` and
whose `HEAD` does not resolve gets the forced rename. -/
theorem ensureDefaultBranch_head_cases_witness :
    ensureDefaultBranch firstPushOracle "/srv/r" =
      (none, [.spawn "/srv/r" "git" ["branch", "-M", "develop"]]) :=
  (ensureDefaultBranch_head_cases firstPushOracle "/srv/r" "develop"
    rfl rfl rfl).1 rfl

/-- **C5**: every string the middleware itself writes to the client is one
of exactly two pkt-lines — the NotAuthorized message or the generic
InternalFailure message; no underlying provisioning, subprocess or
repository-library error is ever written. -/
theorem client_writes_are_the_two_fixed_messages (o : Oracle) (cb : Bool)
    (rd : String) (pk : Nat) (cmd : List String) (s : String)
    (hs : Event.write s ∈ sessionHandler o cb rd pk cmd) :
    s = pktLine errNotAuthed ∨ s = pktLine errSystemMalfunction := by
  rcases sessionHandler_mem o cb rd pk cmd _ hs with h | ⟨gc, repo, _, h | h⟩
  · exact absurd h (by simp)
  · exact absurd h (by simp)
  · rcases dispatchGit_mem o cb rd gc repo pk _ h with hp | h | h | h | h
    · simp [Event.isProc] at hp
    · exact Or.inl (by injection h)
    · exact Or.inr (by injection h)
    · exact absurd h (by simp)
    · exact absurd h (by simp)

/-- Witness for C5: a failing authorized push writes the generic
InternalFailure pkt-line, which the theorem classifies. -/
theorem client_writes_are_the_two_fixed_messages_witness :
    pktLine errSystemMalfunction = pktLine errNotAuthed ∨
      pktLine errSystemMalfunction = pktLine errSystemMalfunction :=
  client_writes_are_the_two_fixed_messages failedPushOracle true "/srv/" 0
    ["git-receive-pack", "r"] (pktLine errSystemMalfunction) (by decide)

/-- **C8**: on every session — successful exchange, reported failure, or
pass-through, and even after the session has been told to exit — the last
thing that happens is the invocation of the wrapped downstream handler. -/
theorem downstream_handler_always_runs_last (o : Oracle) (cb : Bool)
    (rd : String) (pk : Nat) (cmd : List String) :
    (sessionHandler o cb rd pk cmd).getLast? = some .downstream := by
  unfold sessionHandler
  exact List.getLast?_concat _

/-- **C2** (refuted by the code): the dispatcher invokes the configured
push callback even when the push path fails.  At the concrete input below —
an authorized push whose `git-receive-pack` subprocess exits nonzero — the
session reports the generic internal failure *and* still invokes the
callback, contradicting "it is not invoked when any of those steps
fails". -/
theorem push_callback_invoked_despite_failed_push :
    Event.write (pktLine errSystemMalfunction) ∈
        sessionHandler failedPushOracle true "/srv/" 0
          ["git-receive-pack", "r"] ∧
      Event.callback "r" 0 ∈
        sessionHandler failedPushOracle true "/srv/" 0
          ["git-receive-pack", "r"] := by
  decide

/-- **C6**: an authorized upload command on a repository path that does not
exist on disk is a silent no-op: the trace is exactly the authorization
query followed by the downstream handler — no provisioning, no subprocess,
no error report. -/
theorem upload_of_nonexistent_repo_is_silent_noop (o : Oracle) (cb : Bool)
    (rd repo gc : String) (pk : Nat)
    (hgc : gc = "git-upload-pack" ∨ gc = "git-upload-archive")
    (ha : o.access ≠ .noAccess) (hstat : o.repoStat = .absent) :
    sessionHandler o cb rd pk [gc, repo] = [.authRepo repo pk, .downstream] := by
  rw [access_ne_noAccess_iff] at ha
  rcases hgc with rfl | rfl <;> rcases ha with ha | ha | ha <;>
    simp [sessionHandler, dispatchGit, ha, gitUploadPack, fileExists, hstat]

/-- Witness for C6: a read-only fetch of a missing repository. -/
theorem upload_of_nonexistent_repo_is_silent_noop_witness :
    sessionHandler missingRepoOracle false "/srv/" 9 ["git-upload-pack", "r"] =
      [.authRepo "r" 9, .downstream] :=
  upload_of_nonexistent_repo_is_silent_noop missingRepoOracle false "/srv/" "r"
    "git-upload-pack" 9 (Or.inl rfl) (by decide) rfl

/-- **C7**: `ensureRepo`: when the root directory is missing its creation
(with mode `os.ModeDir|0700`, whose permission bits are owner-only `0700`)
is the first filesystem action; when the root exists and the repository
path is missing, the only action is `git init --bare` at `root ++ repo` and
the call's outcome is that invocation's outcome; when root and repository
both exist the call succeeds with no action at all. -/
theorem ensureRepo_provisions_and_is_idempotent (o : Oracle)
    (dir repo : String) :
    (o.rootStat = .absent →
        (ensureRepo o dir repo).2.head? = some (.mkdirAll dir mkdirMode) ∧
          mkdirMode % 512 = 0o700) ∧
      (o.rootStat = .present → o.repoStat = .absent →
        (ensureRepo o dir repo).2 =
            [.spawn "" "git" ["init", "--bare", dir ++ repo]] ∧
          (ensureRepo o dir repo).1 = o.initResult) ∧
      (o.rootStat = .present → o.repoStat = .present →
        ensureRepo o dir repo = (none, [])) := by
  refine ⟨fun h1 => ⟨?_, by decide⟩, fun h1 h2 => ?_, fun h1 h2 => ?_⟩
  · cases hmk : o.mkdirResult <;> cases hrs : o.repoStat <;>
      cases hin : o.initResult <;>
      simp [ensureRepo, fileExists, h1, hmk, hrs, hin]
  · cases hin : o.initResult <;>
      simp [ensureRepo, fileExists, h1, h2, hin]
  · simp [ensureRepo, fileExists, h1, h2]

/-- Witness for C7: creation of a missing root is the first action, and the
call on an existing root and repository is a no-op. -/
theorem ensureRepo_provisions_and_is_idempotent_witness :
    ((ensureRepo missingRootOracle "/srv/" "r").2.head? =
        some (.mkdirAll "/srv/" mkdirMode) ∧
      mkdirMode % 512 = 0o700) ∧
      ensureRepo happyOracle "/srv/" "r" = (none, []) :=
  ⟨(ensureRepo_provisions_and_is_idempotent missingRootOracle "/srv/" "r").1
      rfl,
    (ensureRepo_provisions_and_is_idempotent happyOracle "/srv/" "r").2.2
      rfl rfl⟩

/-- **C9**: on a two-element command the authorization query is the very
first event and occurs exactly once — also when the subcommand is none of
the three recognized git commands, in which case the trace is just the
query and the downstream handler; on a command of any other shape no
authorization query ever occurs. -/
theorem authRepo_called_once_and_first (o : Oracle) (cb : Bool) (rd : String)
    (pk : Nat) :
    (∀ gc repo,
        (sessionHandler o cb rd pk [gc, repo]).head? =
            some (.authRepo repo pk) ∧
          (sessionHandler o cb rd pk [gc, repo]).countP Event.isAuth = 1 ∧
          (gc ≠ "git-receive-pack" → gc ≠ "git-upload-archive" →
            gc ≠ "git-upload-pack" →
            sessionHandler o cb rd pk [gc, repo] =
              [.authRepo repo pk, .downstream])) ∧
      ∀ cmd : List String, cmd.length ≠ 2 →
        ∀ e ∈ sessionHandler o cb rd pk cmd, e.isAuth = false := by
  constructor
  · intro gc repo
    refine ⟨by simp [sessionHandler], ?_, fun h1 h2 h3 => ?_⟩
    · have hz : (dispatchGit o cb rd gc repo pk).countP Event.isAuth = 0 :=
        List.countP_eq_zero.mpr (by
          intro e he
          simp [dispatchGit_no_auth o cb rd gc repo pk e he])
      simp [sessionHandler, List.countP_cons, List.countP_append, hz,
        Event.isAuth]
    · simp [sessionHandler, dispatchGit, h1, h2, h3]
  · intro cmd hlen e he
    rcases cmd with _ | ⟨a, _ | ⟨b, _ | ⟨c, rest⟩⟩⟩
    · simp [sessionHandler] at he
      simp [he, Event.isAuth]
    · simp [sessionHandler] at he
      simp [he, Event.isAuth]
    · simp at hlen
    · simp [sessionHandler] at he
      simp [he, Event.isAuth]

/-- Witness for C9: an unrecognized two-element command still queries
authorization first, and a command of another shape never does. -/
theorem authRepo_called_once_and_first_witness :
    sessionHandler happyOracle false "/srv/" 3 ["whoami", "r"] =
        [.authRepo "r" 3, .downstream] ∧
      ∀ e ∈ sessionHandler happyOracle false "/srv/" 3 ["only-one"],
        e.isAuth = false :=
  ⟨((authRepo_called_once_and_first happyOracle false "/srv/" 3).1 "whoami"
      "r").2.2 (by decide) (by decide) (by decide),
    (authRepo_called_once_and_first happyOracle false "/srv/" 3).2
      ["only-one"] (by decide)⟩

/-- **C10**: an authorized push whose provisioning, pack exchange and
`update-server-info` all succeed but whose repository has zero branches
(`brs.Next()` fails) is reported to the client as the generic internal
failure: the trace contains the InternalFailure pkt-line and exit 1. -/
theorem branchless_push_reports_internal_failure (o : Oracle) (cb : Bool)
    (rd repo : String) (pk : Nat) (ge : GErr)
    (ha : o.access = .readWriteAccess ∨ o.access = .adminAccess)
    (hroot : o.rootStat = .present) (hrepo : o.repoStat = .absent)
    (hinit : o.initResult = none) (hpack : o.packRun = none)
    (husi : o.updateInfoRun = none) (hopen : o.plainOpen = none)
    (hbr : o.branchesResult = none) (hfb : o.firstBranch = .nextErr ge) :
    Event.write (pktLine errSystemMalfunction) ∈
        sessionHandler o cb rd pk ["git-receive-pack", repo] ∧
      Event.exitSession 1 ∈
        sessionHandler o cb rd pk ["git-receive-pack", repo] := by
  have hrp : gitReceivePack o "git-receive-pack" rd repo =
      (some ge,
        [.spawn "" "git" ["init", "--bare", rd ++ repo],
          .spawn "./" "git-receive-pack" [rd ++ repo],
          .spawn (rd ++ repo) "git" ["update-server-info"]]) := by
    simp [gitReceivePack, ensureRepo, ensureDefaultBranch, runCmd, fileExists,
      hroot, hrepo, hinit, hpack, husi, hopen, hbr, hfb]
  rcases ha with ha | ha <;> constructor <;>
    simp [sessionHandler, dispatchGit, ha, hrp, fatalGit]

/-- Witness for C10: the concrete zero-branch first push. -/
theorem branchless_push_reports_internal_failure_witness :
    Event.write (pktLine errSystemMalfunction) ∈
        sessionHandler zeroBranchOracle true "/srv/" 0
          ["git-receive-pack", "r"] ∧
      Event.exitSession 1 ∈
        sessionHandler zeroBranchOracle true "/srv/" 0
          ["git-receive-pack", "r"] :=
  branchless_push_reports_internal_failure zeroBranchOracle true "/srv/" "r" 0
    (.other 0) (Or.inr rfl) rfl rfl rfl rfl rfl rfl rfl rfl

end WishGit
